import Mathlib

/-!
Verification of the multipart transfer engine of `abersheeran/s3sync`.

The repository contains three variants of the same transfer logic:

* `src/index.ts` — `SyncWorkflow.run`, the Cloudflare-workflow variant: a
  streaming 20 MiB buffer-fill chunk planner whose part uploads are pushed as
  in-flight promises (`step.do` steps) and collected with `Promise.allSettled`;
* `src/unnamed/part_000` — the queue-consumer variant: the same buffer-fill
  loop, but each part upload is awaited sequentially (`uploadLargeFile`);
* `src/unnamed/part_001` — the blob variant: a slice-based chunk planner over
  a known total size (`uploadLargeFile` with `file.slice`).

Bytes are modelled as `Nat`, byte buffers as `List Nat`, and a source download
stream as the list of chunks delivered by successive `reader.read()` calls
(`List (List Nat)`).  HTTP responses are modelled by the fields the code
inspects: an `ok` flag, the `ETag` header for part uploads, and the response
body text for the initiate call.  Thrown JS errors are modelled by the `Err`
type and `Except`.
-/

namespace S3Sync

/-- Errors thrown by the transfer code.  Each constructor corresponds to one
`throw new Error(...)` site (or, for `abortStepFailed`, to the rejection of the
`'Abort upload'` workflow step escaping the `catch` block). -/
inductive Err where
  /-- `下载失败: ...` thrown by `downloadLargeFile` when the source GET is not ok;
  the field carries the response text interpolated into the message. -/
  | downloadFailed (detail : String)
  /-- `初始化上传失败` thrown when the initiate POST response is not ok. -/
  | initiateFailed
  /-- `无法获取 UploadId` thrown by the two `unnamed` variants when the regex
  finds no upload id in the initiate response body. -/
  | uploadIdMissing
  /-- `分片 n 上传失败` thrown when a part PUT response is not ok. -/
  | partUploadFailed (n : Nat)
  /-- `分片 n 未返回 ETag` thrown when a part PUT response is ok but has no ETag. -/
  | etagMissing (n : Nat)
  /-- `Upload part failed: reason` thrown by `SyncWorkflow.run` when mapping
  over the `Promise.allSettled` results; wraps the first rejection reason. -/
  | collectPartFailed (reason : Err)
  /-- `完成上传失败` thrown when the complete POST response is not ok. -/
  | completeFailed
  /-- Rejection of the `'Abort upload'` step in `SyncWorkflow.run` after its
  retries are exhausted; nothing in the `catch` block guards against it. -/
  | abortStepFailed
deriving DecidableEq

/-- A successful part result, `{ ETag, PartNumber }` in the source. -/
structure UploadPart where
  ETag : String
  PartNumber : Nat
deriving DecidableEq

/-- The two facts the code reads off a part-upload PUT response:
`uploadResponse.ok` and `uploadResponse.headers.get('ETag')`. -/
structure PartResponse where
  ok : Bool
  etag : Option String
deriving DecidableEq

/-- One part upload against the destination, as written identically in
`SyncWorkflow.run`'s `uploadStep` (src/index.ts:76-96) and in `uploadPart` of
`part_000` (lines 155-176) and the loop body of `part_001` (lines 102-121):
non-ok response throws `分片 n 上传失败`, a missing ETag header throws
`分片 n 未返回 ETag`, otherwise the result is `{ ETag: etag, PartNumber: n }`. -/
def uploadPart (resp : PartResponse) (partNumber : Nat) : Except Err UploadPart :=
  if resp.ok = false then .error (.partUploadFailed partNumber)
  else
    match resp.etag with
    | none => .error (.etagMissing partNumber)
    | some e => .ok { ETag := e, PartNumber := partNumber }

/-- Boolean success test on an upload outcome. -/
def outcomeOk : Except Err UploadPart → Bool
  | .ok _ => true
  | .error _ => false

/-- Smallest index at which `pat` occurs in `s` (as a contiguous sublist). -/
def firstIdx (pat s : List Char) : Option Nat :=
  (List.range (s.length + 1)).find? (fun i => pat.isPrefixOf (s.drop i))

/-- Largest index at which `pat` occurs in `s` (as a contiguous sublist). -/
def lastIdx (pat s : List Char) : Option Nat :=
  (List.range (s.length + 1)).reverse.find? (fun i => pat.isPrefixOf (s.drop i))

/-- The opening tag scanned for by the initiate-response regex. -/
def openTag : List Char := "<UploadId>".toList

/-- The closing tag scanned for by the initiate-response regex. -/
def closeTag : List Char := "</UploadId>".toList

/-- Model of `initResult.match(/<UploadId>(.*)<\/UploadId>/)?.[1]` (identical
in all three variants): the capture starts after the leftmost `<UploadId>` and,
because `.*` is greedy, extends to the last `</UploadId>` of the body; `none`
when either tag is absent.  Bodies are newline-free in this model (the regex
dot does not match a newline). -/
def uploadIdOf (s : List Char) : Option (List Char) :=
  match firstIdx openTag s with
  | none => none
  | some i =>
    let rest := s.drop (i + openTag.length)
    match lastIdx closeTag rest with
    | none => none
    | some j => some (rest.take j)

/-- The fixed buffer capacity of the streaming variants:
`const bufferSize = 20 * 1024 * 1024` (src/index.ts:101, part_000:91). -/
def bufferSize : Nat := 20 * 1024 * 1024

/-- The inner copy loop shared by `SyncWorkflow.run` (src/index.ts:115-129) and
`part_000` (lines 102-116): one `reader.read()` chunk `v` is copied into the
buffer in blocks of `min (B - bufferOffset) (v.length - valueOffset)` bytes and
the buffer is emitted as a part (and reset) exactly when it reaches `B` bytes.
`fuel` bounds the number of loop iterations; with the loop invariant
`buffer.length < B` each iteration copies at least one byte, so `v.length`
iterations always suffice and the fuel-exhausted branch is unreachable (if the
copy size could be 0 the JS loop would not terminate at all, so no run of the
source reaches that branch either).  Returns the emitted parts in emission
order and the final buffer contents. -/
def fillLoop (B : Nat) : Nat → List Nat → List Nat → List (List Nat) × List Nat
  | _, buffer, [] => ([], buffer)
  | 0, buffer, v => ([], buffer ++ v)
  | fuel + 1, buffer, v =>
    let c := min (B - buffer.length) v.length
    let filled := buffer ++ v.take c
    let rest := v.drop c
    if filled.length = B then
      let r := fillLoop B fuel [] rest
      (filled :: r.1, r.2)
    else
      fillLoop B fuel filled rest

/-- Processing of one stream chunk by the copy loop. -/
def fillValue (B : Nat) (buffer v : List Nat) : List (List Nat) × List Nat :=
  fillLoop B v.length buffer v

/-- The outer `while (true) { reader.read() ... }` loop: every delivered chunk
runs through the copy loop, threading the buffer. -/
def runFill (B : Nat) (buffer : List Nat) : List (List Nat) → List (List Nat) × List Nat
  | [] => ([], buffer)
  | v :: rest =>
    let r := fillValue B buffer v
    let r2 := runFill B r.2 rest
    (r.1 ++ r2.1, r2.2)

/-- The buffer-fill chunk planner: the sequence of part payloads produced for a
stream, including the trailing `if (bufferOffset > 0)` residual part
(src/index.ts:133-135, part_000:120-122). -/
def bufferFillParts (B : Nat) (chunks : List (List Nat)) : List (List Nat) :=
  let r := runFill B [] chunks
  if 0 < r.2.length then r.1 ++ [r.2] else r.1

/-- Specification-side chunker, modelled from the spec's words: "accumulate
bytes into a reusable buffer; whenever the buffer reaches capacity, emit it as
the next Part Descriptor and reset the buffer", one byte at a time.  `cur` is
the reversed partial buffer.  Returns the full parts and the residual. -/
def accumChunks (B : Nat) : List Nat → List Nat → List (List Nat) × List Nat
  | cur, [] => ([], cur.reverse)
  | cur, x :: xs =>
    let cur2 := x :: cur
    if cur2.length = B then
      let r := accumChunks B [] xs
      (cur2.reverse :: r.1, r.2)
    else
      accumChunks B cur2 xs

/-- Specification-side chunk list: all full `B`-byte chunks of `l` followed by
the final short chunk when any bytes remain ("at stream end, if the buffer
holds any residual bytes, emit one final, possibly short, part"). -/
def chunksOf (B : Nat) (l : List Nat) : List (List Nat) :=
  let r := accumChunks B [] l
  if r.2 = [] then r.1 else r.1 ++ [r.2]

/-- Characterisation of splitting `l` into full `B`-chunks plus a short rest. -/
def IsSplit (B : Nat) (l : List Nat) (o : List (List Nat) × List Nat) : Prop :=
  (∀ p ∈ o.1, p.length = B) ∧ o.2.length < B ∧ o.1.flatten ++ o.2 = l

/-- `Math.ceil(size / chunkSize)` of `part_001` line 93, for a positive
`chunkSize` (the call site fixes `chunkSize = 10 * 1024 * 1024`). -/
def totalChunks (size chunkSize : Nat) : Nat := (size + chunkSize - 1) / chunkSize

/-- The slice-based chunk planner of `part_001` (lines 97-100): for
`partNumber = 1 .. totalChunks`, `start = (partNumber - 1) * chunkSize` and
`end = Math.min(start + chunkSize, size)`.  Each entry is
`(partNumber, start, end)` describing the half-open byte range of the slice. -/
def slicePlan (size chunkSize : Nat) : List (Nat × Nat × Nat) :=
  (List.range (totalChunks size chunkSize)).map (fun i =>
    let partNumber := i + 1
    let start := (partNumber - 1) * chunkSize
    (partNumber, start, min (start + chunkSize) size))

/-- `file.slice(start, end)` on the downloaded blob of `part_001`. -/
def blobSlice (bytes : List Nat) (start stop : Nat) : List Nat :=
  (bytes.take stop).drop start

/-- Part payloads numbered from `n` upward (`partNumber` starts at 1 and is
incremented once per emitted part in every variant). -/
def numberFrom (n : Nat) : List (List Nat) → List (Nat × List Nat)
  | [] => []
  | x :: xs => (n, x) :: numberFrom (n + 1) xs

/-- The map over `Promise.allSettled(promises)` in `SyncWorkflow.run`
(src/index.ts:137-142).  `Promise.allSettled` resolves with the outcomes in
the order of the input array — the order the promises were pushed, which is
ascending part number — regardless of the order in which they settled; the
map callback returns the fulfilled values and throws
`Upload part failed: reason` at the first rejected entry. -/
def collect : List (Except Err UploadPart) → Except Err (List UploadPart)
  | [] => .ok []
  | .error e :: _ => .error (.collectPartFailed e)
  | .ok p :: rest =>
    match collect rest with
    | .error e => .error e
    | .ok ps => .ok (p :: ps)

/-- First rejection reason among the settled outcomes, in input order. -/
def firstError : List (Except Err UploadPart) → Option Err
  | [] => none
  | .error e :: _ => some e
  | .ok _ :: rest => firstError rest

/-- Destination-side protocol events of one transfer, in the order the model
performs them.  `putPart` records the part number, the upload id interpolated
into the PUT URL (`none` models a JS `undefined` uploadId, which the workflow
variant interpolates as the literal string `undefined`), and the payload. -/
inductive Ev where
  | initiate
  | putPart (partNumber : Nat) (uploadId : Option (List Char)) (payload : List Nat)
  | settled (partNumber : Nat) (ok : Bool)
  | complete (parts : List UploadPart)
  | abort
deriving DecidableEq

/-- Planned parts of the streaming variants: buffer-fill payloads numbered
from 1. -/
def plannedOf (B : Nat) (chunks : List (List Nat)) : List (Nat × List Nat) :=
  numberFrom 1 (bufferFillParts B chunks)

/-- Settled outcome of every planned part's upload step, in dispatch order. -/
def outcomesOf (resp : Nat → PartResponse) (B : Nat) (chunks : List (List Nat)) :
    List (Nat × Except Err UploadPart) :=
  (plannedOf B chunks).map (fun q => (q.1, uploadPart (resp q.1) q.1))

/-- Environment of one `SyncWorkflow.run` execution.  `download` is the
source GET: either the error text of a non-ok response or the chunk sequence
the stream delivers.  `partResp` gives the settled response of part `n`'s
upload step (after the step's own retries).  `settleOrder` lists the positions
(0-based, in dispatch order) of the in-flight uploads in the real-time order
in which they settled.  `abortStepOk` tells whether the `'Abort upload'` step,
with its retries, succeeds. -/
structure WorkflowInput where
  download : Except String (List (List Nat))
  initOk : Bool
  initBody : List Char
  partResp : Nat → PartResponse
  settleOrder : List Nat
  completeOk : Bool
  abortStepOk : Bool

/-- Model of `SyncWorkflow.run` (src/index.ts:33-189).  The control flow of
the source, in order: `downloadLargeFile` (line 44, outside every
try/catch); the `'Init upload'` step (46-63), which throws on a non-ok
response but returns the regex match *unchecked* — a body without an upload id
yields `undefined` and the run proceeds; the buffer-fill loop pushing one
`uploadStep` promise per part (110-135); `Promise.allSettled` + map (137-142);
the `'Complete upload'` step (144-172); and the catch block (173-188), which
awaits the `'Abort upload'` step with no guard before rethrowing — so when
that step itself fails, its rejection replaces the original error.  Part
payloads are recorded here as the planned (freshly filled) buffer contents;
the consequences of the buffer being shared with in-flight steps are modelled
separately by `capturedConcat`. -/
def workflowRun (B : Nat) (inp : WorkflowInput) : Except Err Unit × List Ev :=
  match inp.download with
  | .error s => (.error (.downloadFailed s), [])
  | .ok chunks =>
    if inp.initOk = false then (.error .initiateFailed, [.initiate])
    else
      let uploadId := uploadIdOf inp.initBody
      let planned := plannedOf B chunks
      let outcomes := outcomesOf inp.partResp B chunks
      let putEvs := planned.map (fun q => Ev.putPart q.1 uploadId q.2)
      let settleEvs := inp.settleOrder.filterMap
        (fun i => (outcomes[i]?).map (fun q => Ev.settled q.1 (outcomeOk q.2)))
      let evs := Ev.initiate :: (putEvs ++ settleEvs)
      match collect (outcomes.map (fun q => q.2)) with
      | .error e =>
        ((if inp.abortStepOk then .error e else .error .abortStepFailed),
         evs ++ [.abort])
      | .ok parts =>
        if inp.completeOk = false then
          ((if inp.abortStepOk then .error .completeFailed else .error .abortStepFailed),
           evs ++ [.complete parts, .abort])
        else (.ok (), evs ++ [.complete parts])

/-- Environment of one queue-consumer transfer (`part_000`); identical to the
workflow environment except that parts are not concurrent (no settle order)
and the abort is a bare `fetch(...).catch(console.error)` — `abortFetchThrows`
tells whether that DELETE fetch rejects. -/
structure QueueInput where
  download : Except String (List (List Nat))
  initOk : Bool
  initBody : List Char
  partResp : Nat → PartResponse
  completeOk : Bool
  abortFetchThrows : Bool

/-- Sequential part uploads (`await uploadPart(...)` one at a time, in part
order): stop at the first failure without attempting the next part; successes
are pushed onto `parts` in order. -/
def seqUploads (resp : Nat → PartResponse) (uploadId : Option (List Char)) :
    List (Nat × List Nat) → Except Err (List UploadPart) × List Ev
  | [] => (.ok [], [])
  | q :: rest =>
    match uploadPart (resp q.1) q.1 with
    | .error e => (.error e, [Ev.putPart q.1 uploadId q.2])
    | .ok p =>
      let r := seqUploads resp uploadId rest
      (match r.1 with
       | .error e => .error e
       | .ok ps => .ok (p :: ps),
       Ev.putPart q.1 uploadId q.2 :: r.2)

/-- Model of `uploadLargeFile` of `part_000` (lines 58-177), composed with the
`downloadLargeFile` call that precedes it in the queue handler.  Control flow:
download (error propagates, nothing destination-side has happened); initiate
with a non-ok response throwing `初始化上传失败`; the explicit
`if (!uploadId) throw new Error('无法获取 UploadId')` check (lines 84-86, still
before the try block, so no abort); then inside the try: the buffer-fill loop
with one awaited `uploadPart` per emitted part, and the complete POST.  The
catch block issues the abort DELETE with `.catch(e => console.error(...))`
(line 150), so a failing abort fetch is swallowed and the original error is
always the one rethrown — accordingly `abortFetchThrows` does not influence
the result.  The model plans all parts from the whole stream before uploading;
in the source reading and uploading are interleaved, but reading does not
depend on upload results, so the per-part requests and outcomes are the same. -/
def seqRun (B : Nat) (inp : QueueInput) : Except Err Unit × List Ev :=
  match inp.download with
  | .error s => (.error (.downloadFailed s), [])
  | .ok chunks =>
    if inp.initOk = false then (.error .initiateFailed, [.initiate])
    else
      match uploadIdOf inp.initBody with
      | none => (.error .uploadIdMissing, [.initiate])
      | some uid =>
        let r := seqUploads inp.partResp (some uid) (plannedOf B chunks)
        match r.1 with
        | .error e => (.error e, .initiate :: (r.2 ++ [.abort]))
        | .ok parts =>
          if inp.completeOk = false then
            (.error .completeFailed, .initiate :: (r.2 ++ [.complete parts, .abort]))
          else (.ok (), .initiate :: (r.2 ++ [.complete parts]))

/-- Environment of one blob-variant transfer (`part_001`): the download is
`await response.blob()`, so the whole byte string is in hand and
`chunkSize` (10 MiB at the call site) drives the slice planner. -/
structure BlobInput where
  download : Except String (List Nat)
  chunkSize : Nat
  initOk : Bool
  initBody : List Char
  partResp : Nat → PartResponse
  completeOk : Bool
  abortFetchThrows : Bool

/-- Model of `uploadLargeFile` of `part_001` (lines 60-156), composed with its
preceding download.  Identical protocol skeleton to `seqRun` — including the
explicit upload-id check and the swallowed abort failure — but the parts are
the eager `file.slice(start, end)` payloads of the slice planner, uploaded
sequentially. -/
def blobRun (inp : BlobInput) : Except Err Unit × List Ev :=
  match inp.download with
  | .error s => (.error (.downloadFailed s), [])
  | .ok bytes =>
    if inp.initOk = false then (.error .initiateFailed, [.initiate])
    else
      match uploadIdOf inp.initBody with
      | none => (.error .uploadIdMissing, [.initiate])
      | some uid =>
        let planned := (slicePlan bytes.length inp.chunkSize).map
          (fun t => (t.1, blobSlice bytes t.2.1 t.2.2))
        let r := seqUploads inp.partResp (some uid) planned
        match r.1 with
        | .error e => (.error e, .initiate :: (r.2 ++ [.abort]))
        | .ok parts =>
          if inp.completeOk = false then
            (.error .completeFailed, .initiate :: (r.2 ++ [.complete parts, .abort]))
          else (.ok (), .initiate :: (r.2 ++ [.complete parts]))

/-- One `<Part>` entry of the `CompleteMultipartUpload` body
(whitespace-free rendering of the template literal used by all variants). -/
def partEntryXml (p : UploadPart) : String :=
  "<Part><PartNumber>" ++ toString p.PartNumber ++ "</PartNumber><ETag>"
    ++ p.ETag ++ "</ETag></Part>"

/-- The `CompleteMultipartUpload` body submitted by the complete POST. -/
def completeXml (parts : List UploadPart) : String :=
  "<CompleteMultipartUpload>" ++ String.join (parts.map partEntryXml)
    ++ "</CompleteMultipartUpload>"

/-- Number of occurrences of `pat` as a contiguous sublist of `s`. -/
def countOccs (pat s : List Char) : Nat :=
  (List.range s.length).countP (fun i => pat.isPrefixOf (s.drop i))

/-- Contents of the shared `buffer` of `SyncWorkflow.run` over time, and what
an in-flight `uploadStep` actually uploads.  The run hands the *same*
`Uint8Array` to every full-part `uploadStep` and then refills it
(src/index.ts:102, 120, 125, 127): `promises.push(uploadStep(buffer, partNumber))`
is followed by `bufferOffset = 0` and further `buffer.set(...)` writes while
the pushed step is still in flight.  The bytes a part's PUT carries are
whatever the buffer holds when the step's fetch serialises its body — and a
step that *retries* re-reads the buffer long after later refills.  `gens`
lists the successive full-buffer generations (generation `i` is planned part
`i`); a capture schedule `g` assigns to part `i` the generation `g i` whose
contents its PUT actually reads.  `g i = i` is the intended immediate capture. -/
def capturedConcat (gens : List (List Nat)) (g : Nat → Nat) : List Nat :=
  ((List.range gens.length).map (fun i => gens.getD (g i) [])).flatten

/-- A capture schedule is legal when every part reads a generation that exists
and is not earlier than its own (the buffer never again holds generation `i`
once refilled with generation `i + 1`). -/
def legalCapture (gens : List (List Nat)) (g : Nat → Nat) : Prop :=
  ∀ i ∈ List.range gens.length, i ≤ g i ∧ g i < gens.length

instance (gens : List (List Nat)) (g : Nat → Nat) : Decidable (legalCapture gens g) := by
  unfold legalCapture; infer_instance

/-- An initiate response body carrying an upload id. -/
def sampleBody : List Char := "<UploadId>uid-1</UploadId>".toList

/-- A success-status initiate response body with no `<UploadId>` element. -/
def noIdBody : List Char := "<Error>AccessDenied</Error>".toList

/-- Part responses that always succeed with a distinct entity tag. -/
def okResp (n : Nat) : PartResponse := { ok := true, etag := some ("etag-" ++ toString n) }

/-- Workflow environment in which the initiate POST succeeds but its body has
no upload id, and everything else succeeds; the stream delivers one byte. -/
def wNoId : WorkflowInput :=
  { download := .ok [[9]], initOk := true, initBody := noIdBody,
    partResp := okResp, settleOrder := [0], completeOk := true, abortStepOk := true }

/-- The queue-consumer environment for the same no-upload-id initiate body. -/
def qNoId : QueueInput :=
  { download := .ok [[9]], initOk := true, initBody := noIdBody,
    partResp := okResp, completeOk := true, abortFetchThrows := false }

/-- The blob environment for the same no-upload-id initiate body. -/
def bNoId : BlobInput :=
  { download := .ok [9], chunkSize := 10 * 1024 * 1024, initOk := true,
    initBody := noIdBody, partResp := okResp, completeOk := true,
    abortFetchThrows := false }

/-- Workflow environment in which the transfer reaches the complete POST, the
complete POST fails (the root cause), and the `'Abort upload'` step then
exhausts its retries as well. -/
def wAbortMask : WorkflowInput :=
  { download := .ok [[1]], initOk := true, initBody := sampleBody,
    partResp := okResp, settleOrder := [0], completeOk := false, abortStepOk := false }

/-- Workflow environment in which part 1's upload step fails permanently and
the `'Abort upload'` step then exhausts its retries as well. -/
def wPartAbortMask : WorkflowInput :=
  { download := .ok [[1, 2, 3]], initOk := true, initBody := sampleBody,
    partResp := fun _ => { ok := false, etag := none }, settleOrder := [0],
    completeOk := true, abortStepOk := false }

/-- Boolean test for the part-failure error shape `Upload part failed: ...`. -/
def isCollectFailure : Except Err Unit → Bool
  | .error (.collectPartFailed _) => true
  | _ => false

/-- The fulfilled values among a list of settled outcomes, in order. -/
def okParts (outs : List (Except Err UploadPart)) : List UploadPart :=
  outs.filterMap (fun o => match o with | .ok p => some p | .error _ => none)

/-- Workflow environment whose source download fails outright. -/
def wDown : WorkflowInput :=
  { download := .error "boom", initOk := true, initBody := sampleBody,
    partResp := okResp, settleOrder := [], completeOk := true, abortStepOk := true }

/-- Queue environment whose source download fails outright. -/
def qDown : QueueInput :=
  { download := .error "boom", initOk := true, initBody := sampleBody,
    partResp := okResp, completeOk := true, abortFetchThrows := false }

/-- Blob environment whose source download fails outright. -/
def bDown : BlobInput :=
  { download := .error "boom", chunkSize := 10 * 1024 * 1024, initOk := true,
    initBody := sampleBody, partResp := okResp, completeOk := true,
    abortFetchThrows := false }

/-- Queue environment in which part 1's upload fails (and the abort DELETE
also rejects, to exercise the swallowing). -/
def qPartFail : QueueInput :=
  { download := .ok [[7]], initOk := true, initBody := sampleBody,
    partResp := fun _ => { ok := false, etag := none }, completeOk := true,
    abortFetchThrows := true }

/-- Workflow environment in which part 1's upload step fails permanently but
the abort step succeeds. -/
def wPartFail : WorkflowInput :=
  { download := .ok [[1, 2, 3]], initOk := true, initBody := sampleBody,
    partResp := fun _ => { ok := false, etag := none }, settleOrder := [0],
    completeOk := true, abortStepOk := true }

/-- Queue environment in which every part succeeds but the complete POST
fails (and the abort DELETE also rejects, to exercise the swallowing). -/
def qCompleteFail : QueueInput :=
  { download := .ok [[7]], initOk := true, initBody := sampleBody,
    partResp := okResp, completeOk := false, abortFetchThrows := true }

/-- Blob environment (chunk size 2, three bytes, so two slices) in which
part 1's upload fails. -/
def bPartFail : BlobInput :=
  { download := .ok [1, 2, 3], chunkSize := 2, initOk := true,
    initBody := sampleBody, partResp := fun _ => { ok := false, etag := none },
    completeOk := true, abortFetchThrows := true }

/-- Blob environment (chunk size 2, three bytes) in which both parts succeed
but the complete POST fails. -/
def bCompleteFail : BlobInput :=
  { download := .ok [1, 2, 3], chunkSize := 2, initOk := true,
    initBody := sampleBody, partResp := okResp, completeOk := false,
    abortFetchThrows := true }

/-- Workflow environment in which the part succeeds, the complete POST fails,
and the retried abort step succeeds. -/
def wCompleteFail : WorkflowInput :=
  { download := .ok [[1]], initOk := true, initBody := sampleBody,
    partResp := okResp, settleOrder := [0], completeOk := false, abortStepOk := true }

/-- Workflow environment with two planned parts (capacity 2) in which part 1
fails, part 2 succeeds, and the settlements arrive out of order. -/
def wTwoParts : WorkflowInput :=
  { download := .ok [[1, 2, 3]], initOk := true, initBody := sampleBody,
    partResp := fun n => if n = 1 then { ok := false, etag := none } else okResp n,
    settleOrder := [1, 0], completeOk := true, abortStepOk := true }

/-- Workflow environment for a fully successful one-part transfer. -/
def wOk : WorkflowInput :=
  { download := .ok [[5]], initOk := true, initBody := sampleBody,
    partResp := okResp, settleOrder := [0], completeOk := true, abortStepOk := true }

/-- Workflow environment for a zero-byte source object. -/
def wEmpty : WorkflowInput :=
  { download := .ok [], initOk := true, initBody := sampleBody,
    partResp := okResp, settleOrder := [], completeOk := true, abortStepOk := true }

/-- Queue environment for a zero-byte source object. -/
def qEmpty : QueueInput :=
  { download := .ok [], initOk := true, initBody := sampleBody,
    partResp := okResp, completeOk := true, abortFetchThrows := false }

/-- Blob environment for a zero-byte source object. -/
def bEmpty : BlobInput :=
  { download := .ok [], chunkSize := 10 * 1024 * 1024, initOk := true,
    initBody := sampleBody, partResp := okResp, completeOk := true,
    abortFetchThrows := false }

/-- The immediate-capture schedule: part `i` reads generation `i`. -/
def capNow : Nat → Nat := fun i => i

/-- A late-capture schedule: every part reads generation 1 (part 1's step
serialises or retries only after the buffer was refilled for part 2). -/
def capLate : Nat → Nat := fun _ => 1

/-! ## Splitting lemmas: the copy loop computes the canonical chunking -/

theorem isSplit_def {B : Nat} {l : List Nat} {ps : List (List Nat)} {r : List Nat} :
    IsSplit B l (ps, r) ↔
      ((∀ p ∈ ps, p.length = B) ∧ r.length < B ∧ ps.flatten ++ r = l) :=
  Iff.rfl

theorem isSplit_unique {B : Nat} (ps : List (List Nat)) :
    ∀ (l : List Nat) (ps' : List (List Nat)) (r r' : List Nat),
    IsSplit B l (ps, r) → IsSplit B l (ps', r') → ps = ps' ∧ r = r' := by
  induction ps with
  | nil =>
    intro l ps' r r' h h'
    rw [isSplit_def] at h
    obtain ⟨-, hr, hcat⟩ := h
    simp only [List.flatten_nil, List.nil_append] at hcat
    cases ps' with
    | nil =>
      rw [isSplit_def] at h'
      obtain ⟨-, -, hcat'⟩ := h'
      simp only [List.flatten_nil, List.nil_append] at hcat'
      exact ⟨rfl, hcat.trans hcat'.symm⟩
    | cons p' tl' =>
      rw [isSplit_def] at h'
      obtain ⟨hlen', -, hcat'⟩ := h'
      exfalso
      have hp' : p'.length = B := hlen' p' (by simp)
      have hBl : B ≤ l.length := by
        rw [← hcat']
        simp only [List.flatten_cons, List.append_assoc, List.length_append, hp']
        omega
      rw [hcat] at hr
      omega
  | cons p tl ih =>
    intro l ps' r r' h h'
    rw [isSplit_def] at h
    obtain ⟨hlen, hr, hcat⟩ := h
    cases ps' with
    | nil =>
      rw [isSplit_def] at h'
      obtain ⟨-, hr', hcat'⟩ := h'
      exfalso
      have hp : p.length = B := hlen p (by simp)
      have hBl : B ≤ l.length := by
        rw [← hcat]
        simp only [List.flatten_cons, List.append_assoc, List.length_append, hp]
        omega
      simp only [List.flatten_nil, List.nil_append] at hcat'
      rw [hcat'] at hr'
      omega
    | cons p' tl' =>
      rw [isSplit_def] at h'
      obtain ⟨hlen', hr', hcat'⟩ := h'
      have hp : p.length = B := hlen p (by simp)
      have hp' : p'.length = B := hlen' p' (by simp)
      simp only [List.flatten_cons, List.append_assoc] at hcat hcat'
      have hpeq : p = l.take B := by
        rw [← hcat, ← hp, List.take_left]
      have hpeq' : p' = l.take B := by
        rw [← hcat', ← hp', List.take_left]
      have hdrop : tl.flatten ++ r = l.drop B := by
        rw [← hcat, ← hp, List.drop_left]
      have hdrop' : tl'.flatten ++ r' = l.drop B := by
        rw [← hcat', ← hp', List.drop_left]
      have htl : IsSplit B (l.drop B) (tl, r) :=
        ⟨fun q hq => hlen q (List.mem_cons_of_mem _ hq), hr, hdrop⟩
      have htl' : IsSplit B (l.drop B) (tl', r') :=
        ⟨fun q hq => hlen' q (List.mem_cons_of_mem _ hq), hr', hdrop'⟩
      obtain ⟨e1, e2⟩ := ih (l.drop B) tl' r r' htl htl'
      refine ⟨?_, e2⟩
      rw [hpeq, hpeq', e1]

theorem accumChunks_isSplit {B : Nat} (v : List Nat) : ∀ cur : List Nat,
    cur.length < B → IsSplit B (cur.reverse ++ v) (accumChunks B cur v) := by
  induction v with
  | nil =>
    intro cur hcur
    refine ⟨by simp [accumChunks], by simpa [accumChunks] using hcur, by simp [accumChunks]⟩
  | cons x xs ih =>
    intro cur hcur
    simp only [accumChunks]
    by_cases hfull : (x :: cur).length = B
    · rw [if_pos hfull]
      have hB : 0 < B := by simp at hfull ; omega
      have ihx := ih [] hB
      simp only [List.reverse_nil, List.nil_append] at ihx
      obtain ⟨hlen, hr, hcat⟩ := ihx
      refine ⟨?_, hr, ?_⟩
      · intro p hp
        rcases List.mem_cons.mp hp with hp | hp
        · rw [hp] ; simpa using hfull
        · exact hlen p hp
      · simp only [List.flatten_cons, List.append_assoc, hcat]
        simp
    · rw [if_neg hfull]
      have hcur' : (x :: cur).length < B := by
        simp only [List.length_cons] at hfull ⊢
        omega
      have := ih (x :: cur) hcur'
      simpa [List.append_assoc] using this

theorem fillLoop_isSplit {B : Nat} : ∀ (fuel : Nat) (buffer v : List Nat),
    buffer.length < B → v.length ≤ fuel →
    IsSplit B (buffer ++ v) (fillLoop B fuel buffer v) := by
  intro fuel
  induction fuel with
  | zero =>
    intro buffer v hbuf hv
    have : v = [] := List.length_eq_zero.mp (Nat.le_zero.mp hv)
    subst this
    exact ⟨by simp [fillLoop], by simpa [fillLoop] using hbuf, by simp [fillLoop]⟩
  | succ fuel ih =>
    intro buffer v hbuf hv
    cases v with
    | nil => exact ⟨by simp [fillLoop], by simpa [fillLoop] using hbuf, by simp [fillLoop]⟩
    | cons x xs =>
      simp only [fillLoop]
      have hc1 : 1 ≤ min (B - buffer.length) (x :: xs).length := by
        simp only [List.length_cons]
        omega
      have hcle : min (B - buffer.length) (x :: xs).length ≤ (x :: xs).length :=
        Nat.min_le_right _ _
      have htake : ((x :: xs).take (min (B - buffer.length) (x :: xs).length)).length
          = min (B - buffer.length) (x :: xs).length := by
        simp [List.length_take, Nat.min_eq_left hcle]
      have hrest : ((x :: xs).drop (min (B - buffer.length) (x :: xs).length)).length ≤ fuel := by
        simp only [List.length_drop]
        simp only [List.length_cons] at hv ⊢
        omega
      by_cases hfull :
          (buffer ++ (x :: xs).take (min (B - buffer.length) (x :: xs).length)).length = B
      · rw [if_pos hfull]
        have hB : 0 < B := by
          rw [← hfull]
          simp only [List.length_append, htake]
          omega
        have ihx := ih [] ((x :: xs).drop (min (B - buffer.length) (x :: xs).length)) hB hrest
        simp only [List.nil_append] at ihx
        obtain ⟨hlen, hr, hcat⟩ := ihx
        refine ⟨?_, hr, ?_⟩
        · intro p hp
          rcases List.mem_cons.mp hp with hp | hp
          · rw [hp] ; exact hfull
          · exact hlen p hp
        · simp only [List.flatten_cons, List.append_assoc, hcat]
          rw [List.take_append_drop]
      · rw [if_neg hfull]
        have hbuf' :
            (buffer ++ (x :: xs).take (min (B - buffer.length) (x :: xs).length)).length < B := by
          simp only [List.length_append, htake] at hfull ⊢
          omega
        have := ih (buffer ++ (x :: xs).take (min (B - buffer.length) (x :: xs).length))
          ((x :: xs).drop (min (B - buffer.length) (x :: xs).length)) hbuf' hrest
        simpa [List.append_assoc, List.take_append_drop] using this

theorem fillValue_isSplit {B : Nat} (buffer v : List Nat) (hbuf : buffer.length < B) :
    IsSplit B (buffer ++ v) (fillValue B buffer v) :=
  fillLoop_isSplit v.length buffer v hbuf (Nat.le_refl _)

theorem runFill_isSplit {B : Nat} (chunks : List (List Nat)) : ∀ buffer : List Nat,
    buffer.length < B → IsSplit B (buffer ++ chunks.flatten) (runFill B buffer chunks) := by
  induction chunks with
  | nil =>
    intro buffer hbuf
    exact ⟨by simp [runFill], by simpa [runFill] using hbuf, by simp [runFill]⟩
  | cons v rest ih =>
    intro buffer hbuf
    obtain ⟨hlen1, hr1, hcat1⟩ := fillValue_isSplit buffer v hbuf
    obtain ⟨hlen2, hr2, hcat2⟩ := ih (fillValue B buffer v).2 hr1
    simp only [runFill]
    refine ⟨?_, hr2, ?_⟩
    · intro p hp
      rcases List.mem_append.mp hp with hp | hp
      · exact hlen1 p hp
      · exact hlen2 p hp
    · simp only [List.flatten_cons, List.flatten_append, List.append_assoc]
      rw [hcat2, ← List.append_assoc, hcat1, List.append_assoc]

theorem runFill_eq_accumChunks {B : Nat} (hB : 0 < B) (chunks : List (List Nat)) :
    runFill B [] chunks = accumChunks B [] chunks.flatten := by
  have h1 := runFill_isSplit chunks [] (by simpa using hB)
  have h2 := accumChunks_isSplit chunks.flatten [] (by simpa using hB)
  simp only [List.nil_append, List.reverse_nil] at h1 h2
  obtain ⟨e1, e2⟩ := isSplit_unique (runFill B [] chunks).1 chunks.flatten
    (accumChunks B [] chunks.flatten).1 (runFill B [] chunks).2
    (accumChunks B [] chunks.flatten).2 h1 h2
  exact Prod.ext e1 e2

theorem bufferFillParts_eq_chunksOf {B : Nat} (hB : 0 < B) (chunks : List (List Nat)) :
    bufferFillParts B chunks = chunksOf B chunks.flatten := by
  simp only [bufferFillParts, chunksOf, runFill_eq_accumChunks hB]
  by_cases hres : (accumChunks B [] chunks.flatten).2 = []
  · rw [if_neg (by simp [hres]), if_pos hres]
  · rw [if_pos (by simpa [List.length_pos] using hres), if_neg hres]

theorem chunksOf_spec {B : Nat} (hB : 0 < B) (l : List Nat) :
    (chunksOf B l).flatten = l ∧
    (∀ p ∈ (chunksOf B l).dropLast, p.length = B) ∧
    ∀ p ∈ chunksOf B l, 0 < p.length ∧ p.length ≤ B := by
  have h := accumChunks_isSplit l [] (by simpa using hB)
  simp only [List.reverse_nil, List.nil_append] at h
  obtain ⟨hlen, hr, hcat⟩ := h
  by_cases hres : (accumChunks B [] l).2 = []
  · simp only [chunksOf, if_pos hres]
    refine ⟨?_, ?_, ?_⟩
    · rw [hres] at hcat ; simpa using hcat
    · exact fun p hp => hlen p ((List.dropLast_sublist _).subset hp)
    · intro p hp
      have := hlen p hp
      omega
  · simp only [chunksOf, if_neg hres]
    refine ⟨?_, ?_, ?_⟩
    · simp only [List.flatten_append, List.flatten_cons, List.flatten_nil, List.append_nil]
      exact hcat
    · intro p hp
      rw [List.dropLast_concat] at hp
      exact hlen p hp
    · intro p hp
      rcases List.mem_append.mp hp with hp | hp
      · have := hlen p hp
        omega
      · have hpr : p = (accumChunks B [] l).2 := by simpa using hp
        subst hpr
        exact ⟨List.length_pos.mpr hres, Nat.le_of_lt hr⟩

theorem bufferFillParts_flatten {B : Nat} (hB : 0 < B) (chunks : List (List Nat)) :
    (bufferFillParts B chunks).flatten = chunks.flatten := by
  rw [bufferFillParts_eq_chunksOf hB]
  exact (chunksOf_spec hB chunks.flatten).1

/-! ## Collection and numbering lemmas -/

theorem collect_eq_error {outs : List (Except Err UploadPart)} {e : Err}
    (h : firstError outs = some e) :
    collect outs = .error (.collectPartFailed e) := by
  induction outs with
  | nil => simp [firstError] at h
  | cons o rest ih =>
    cases o with
    | error e' =>
      simp only [firstError, Option.some.injEq] at h
      simp [collect, h]
    | ok p =>
      simp only [firstError] at h
      simp [collect, ih h]

theorem collect_eq_ok {outs : List (Nat × Except Err UploadPart)}
    (h : ∀ q ∈ outs, ∃ p, q.2 = Except.ok p ∧ p.PartNumber = q.1) :
    ∃ ps, collect (outs.map (fun q => q.2)) = .ok ps ∧
      ps.map (fun p => p.PartNumber) = outs.map (fun q => q.1) := by
  induction outs with
  | nil => exact ⟨[], by simp [collect], by simp⟩
  | cons q rest ih =>
    obtain ⟨p, hq, hn⟩ := h q (by simp)
    obtain ⟨ps, hc, hm⟩ := ih (fun q' hq' => h q' (by simp [hq']))
    refine ⟨p :: ps, ?_, ?_⟩
    · simp only [List.map_cons, hq, collect, hc]
    · simp [hm, hn]

theorem firstError_none {outs : List (Nat × Except Err UploadPart)}
    (h : ∀ q ∈ outs, ∃ p, q.2 = Except.ok p ∧ p.PartNumber = q.1) :
    firstError (outs.map (fun q => q.2)) = none := by
  induction outs with
  | nil => simp [firstError]
  | cons q rest ih =>
    obtain ⟨p, hq, -⟩ := h q (by simp)
    simp only [List.map_cons, hq, firstError]
    exact ih (fun q' hq' => h q' (by simp [hq']))

theorem numberFrom_map_fst (l : List (List Nat)) : ∀ n : Nat,
    (numberFrom n l).map (fun q => q.1) = List.range' n l.length := by
  induction l with
  | nil => intro n ; simp [numberFrom]
  | cons x xs ih =>
    intro n
    simp [numberFrom, List.range'_succ, ih]

theorem numberFrom_length (l : List (List Nat)) : ∀ n : Nat,
    (numberFrom n l).length = l.length := by
  induction l with
  | nil => intro n ; simp [numberFrom]
  | cons x xs ih => intro n ; simp [numberFrom, ih]

theorem numberFrom_map_snd (l : List (List Nat)) : ∀ n : Nat,
    (numberFrom n l).map (fun q => q.2) = l := by
  induction l with
  | nil => intro n ; simp [numberFrom]
  | cons x xs ih => intro n ; simp [numberFrom, ih]

theorem uploadPart_ok_iff {r : PartResponse} {n : Nat} {p : UploadPart} :
    uploadPart r n = .ok p ↔ r.ok = true ∧ r.etag = some p.ETag ∧ p.PartNumber = n := by
  obtain ⟨ok, etag⟩ := r
  obtain ⟨t, m⟩ := p
  cases ok <;> rcases etag with - | e <;>
    simp [uploadPart, UploadPart.mk.injEq, eq_comm, and_comm]

theorem outcomeOk_iff {o : Except Err UploadPart} :
    outcomeOk o = true ↔ ∃ p, o = .ok p := by
  cases o <;> simp [outcomeOk]

theorem collect_eq_okParts : ∀ {outs : List (Except Err UploadPart)},
    (∀ o ∈ outs, outcomeOk o = true) → collect outs = .ok (okParts outs) := by
  intro outs
  induction outs with
  | nil => intro h ; simp [collect, okParts]
  | cons o rest ih =>
    intro h
    obtain ⟨p, hp⟩ := outcomeOk_iff.mp (h o (by simp))
    subst hp
    simp only [collect, ih (fun o' ho' => h o' (by simp [ho'])), okParts, List.filterMap_cons]

theorem filterMap_all_ok {outs : List (Nat × Except Err UploadPart)}
    (h : ∀ q ∈ outs, outcomeOk q.2 = true) :
    outs.filterMap (fun q => if outcomeOk q.2 = true then some q.1 else none) =
      outs.map (fun q => q.1) := by
  induction outs with
  | nil => simp
  | cons q rest ih =>
    rw [List.filterMap_cons, if_pos (h q (by simp)), List.map_cons,
      ih (fun q' hq' => h q' (by simp [hq']))]

theorem outcomesOf_map_fst (resp : Nat → PartResponse) (B : Nat) (chunks : List (List Nat)) :
    (outcomesOf resp B chunks).map (fun q => q.1) =
      List.range' 1 (bufferFillParts B chunks).length := by
  unfold outcomesOf plannedOf
  rw [List.map_map]
  exact numberFrom_map_fst _ _

theorem outcomesOf_mem {resp : Nat → PartResponse} {B : Nat} {chunks : List (List Nat)}
    {q : Nat × Except Err UploadPart} (hq : q ∈ outcomesOf resp B chunks) :
    q.2 = uploadPart (resp q.1) q.1 := by
  obtain ⟨q0, -, rfl⟩ := List.mem_map.mp hq
  rfl

/-! ## Claim theorems -/

/-- C1: refuted on the code.  In `SyncWorkflow.run` the full-part planned
generations for capacity 2 and source bytes `[1,2,3,4]` are `[[1,2],[3,4]]`.
Under the legal capture schedule `capLate` — part 1's in-flight (or retried)
`uploadStep` reads the shared buffer only after the loop refilled it for
part 2 — the bytes assembled in ascending part order are `[3,4,3,4]`, not the
source bytes; the immediate-capture schedule `capNow` recovers the source, so
the discrepancy is exactly the buffer sharing.  (The code's `bufferSize` is
20 MiB; capacity 2 exercises the identical loop on an evaluable stream.) -/
theorem claim1_shared_buffer_capture :
    legalCapture (bufferFillParts 2 [[1, 2, 3, 4]]) capLate ∧
    capturedConcat (bufferFillParts 2 [[1, 2, 3, 4]]) capLate ≠ [1, 2, 3, 4] ∧
    capturedConcat (bufferFillParts 2 [[1, 2, 3, 4]]) capNow = [1, 2, 3, 4] :=
  ⟨by decide, by decide, by decide⟩

/-- C3: refuted for the workflow variant.  On an initiate success response
whose body has no parseable `<UploadId>`, the two `unnamed` variants throw
`无法获取 UploadId` before any part upload, but `SyncWorkflow.run` returns the
failed regex match unchecked and proceeds to the part PUTs with an absent
upload id (the PUT URL carries `uploadId=undefined`), then completes. -/
theorem claim3_missing_upload_id :
    uploadIdOf noIdBody = none ∧
    seqRun bufferSize qNoId = (.error .uploadIdMissing, [.initiate]) ∧
    blobRun bNoId = (.error .uploadIdMissing, [.initiate]) ∧
    workflowRun bufferSize wNoId =
      (.ok (), [.initiate, .putPart 1 none [9], .settled 1 true,
        .complete [{ ETag := "etag-1", PartNumber := 1 }]]) :=
  ⟨rfl, rfl, rfl, rfl⟩

/-- C4: for object size `S > 0` and chunk size `P > 0` the slice planner of
`part_001` produces exactly `ceil(S/P)` parts (the count `N` satisfies
`P*(N-1) < S ≤ P*N`), with part numbers exactly `1..N`; part `i+1` covers
`[i*P, min((i+1)*P, S))`, the ranges tile `[0, S)` contiguously with no gaps,
no overlaps and no empty range; for `S = 0` the planner produces no parts. -/
theorem claim4_slice_plan (S P : Nat) (hP : 0 < P) (hS : 0 < S) :
    (slicePlan S P).length = (S + P - 1) / P ∧
    S ≤ P * (slicePlan S P).length ∧
    P * ((slicePlan S P).length - 1) < S ∧
    (slicePlan S P).map (fun t => t.1) = List.range' 1 (slicePlan S P).length ∧
    (∀ i, i < (slicePlan S P).length →
      (slicePlan S P).getD i (0, 0, 0) = (i + 1, i * P, min ((i + 1) * P) S)) ∧
    ((slicePlan S P).getD 0 (0, 0, 0)).2.1 = 0 ∧
    (∀ i, i + 1 < (slicePlan S P).length →
      ((slicePlan S P).getD i (0, 0, 0)).2.2 = ((slicePlan S P).getD (i + 1) (0, 0, 0)).2.1) ∧
    ((slicePlan S P).getD ((slicePlan S P).length - 1) (0, 0, 0)).2.2 = S ∧
    (∀ i, i < (slicePlan S P).length →
      ((slicePlan S P).getD i (0, 0, 0)).2.1 < ((slicePlan S P).getD i (0, 0, 0)).2.2) ∧
    slicePlan 0 P = [] := by
  have hlen : (slicePlan S P).length = totalChunks S P := by
    simp [slicePlan]
  have hdm : P * totalChunks S P + (S + P - 1) % P = S + P - 1 :=
    Nat.div_add_mod (S + P - 1) P
  have hmod : (S + P - 1) % P < P := Nat.mod_lt _ hP
  have hN0 : 0 < totalChunks S P := by
    rcases hN : totalChunks S P with - | k
    · rw [hN] at hdm
      simp only [Nat.mul_zero, Nat.zero_add] at hdm
      omega
    · omega
  have hub : S ≤ P * totalChunks S P := by omega
  have hk : totalChunks S P - 1 + 1 = totalChunks S P := by omega
  have hmul : P * (totalChunks S P - 1) + P = P * totalChunks S P := by
    conv_rhs => rw [← hk]
    rw [Nat.mul_succ]
  have hlb : P * (totalChunks S P - 1) < S := by omega
  have hget : ∀ i, i < totalChunks S P →
      (slicePlan S P).getD i (0, 0, 0) = (i + 1, i * P, min ((i + 1) * P) S) := by
    intro i hi
    unfold slicePlan
    rw [List.getD_eq_getElem?_getD, List.getElem?_map, List.getElem?_range hi]
    simp [Nat.succ_mul]
  simp only [hlen]
  refine ⟨rfl, hub, hlb, ?_, hget, ?_, ?_, ?_, ?_, ?_⟩
  · unfold slicePlan
    rw [List.map_map, List.range'_eq_map_range]
    refine List.map_congr_left ?_
    intro a ha
    show a + 1 = 1 + a
    omega
  · rw [hget 0 hN0]
    simp
  · intro i hi
    rw [hget i (by omega), hget (i + 1) hi]
    have h1 : (i + 1) * P ≤ (totalChunks S P - 1) * P :=
      Nat.mul_le_mul_right P (by omega)
    have h2 : (totalChunks S P - 1) * P < S := by
      calc (totalChunks S P - 1) * P = P * (totalChunks S P - 1) := Nat.mul_comm _ _
        _ < S := hlb
    show min ((i + 1) * P) S = (i + 1) * P
    exact Nat.min_eq_left (Nat.le_trans h1 (Nat.le_of_lt h2))
  · rw [hget (totalChunks S P - 1) (by omega)]
    show min ((totalChunks S P - 1 + 1) * P) S = S
    rw [hk]
    refine Nat.min_eq_right ?_
    calc S ≤ P * totalChunks S P := hub
      _ = totalChunks S P * P := Nat.mul_comm _ _
  · intro i hi
    rw [hget i hi]
    show i * P < min ((i + 1) * P) S
    refine Nat.lt_min.mpr ⟨?_, ?_⟩
    · exact (Nat.mul_lt_mul_right hP).mpr (by omega)
    · have h1 : i * P ≤ (totalChunks S P - 1) * P :=
        Nat.mul_le_mul_right P (by omega)
      have h2 : (totalChunks S P - 1) * P < S := by
        calc (totalChunks S P - 1) * P = P * (totalChunks S P - 1) := Nat.mul_comm _ _
          _ < S := hlb
      exact Nat.lt_of_le_of_lt h1 h2
  · have h0 : totalChunks 0 P = 0 := by
      unfold totalChunks
      exact Nat.div_eq_of_lt (by omega)
    simp [slicePlan, h0]

/-- C4 witness: the planner at `S = 5`, `P = 2` has exactly `ceil(5/2) = 3`
parts. -/
theorem claim4_slice_plan_witness :
    0 < 2 ∧ 0 < 5 ∧ (slicePlan 5 2).length = (5 + 2 - 1) / 2 :=
  ⟨by decide, by decide, (claim4_slice_plan 5 2 (by decide) (by decide)).1⟩

/-- C5: the buffer-fill planner with the code's 20 MiB capacity equals the
spec-side accumulate-and-emit chunker of the flattened stream — a part is
emitted exactly when the buffer reaches capacity and the residual bytes form
one final short part — so every part except possibly the last is exactly
`bufferSize` bytes, no part is empty or over-long, no byte is lost or
duplicated, and the emitted parts do not depend on how the stream was chunked
into individual reads. -/
theorem claim5_buffer_fill_plan (chunks chunks2 : List (List Nat))
    (h : chunks.flatten = chunks2.flatten) :
    bufferFillParts bufferSize chunks = bufferFillParts bufferSize chunks2 ∧
    bufferFillParts bufferSize chunks = chunksOf bufferSize chunks.flatten ∧
    (∀ p ∈ (bufferFillParts bufferSize chunks).dropLast, p.length = bufferSize) ∧
    (∀ p ∈ bufferFillParts bufferSize chunks, 0 < p.length ∧ p.length ≤ bufferSize) ∧
    (bufferFillParts bufferSize chunks).flatten = chunks.flatten := by
  have hB : 0 < bufferSize := by norm_num [bufferSize]
  refine ⟨?_, bufferFillParts_eq_chunksOf hB chunks, ?_, ?_,
    bufferFillParts_flatten hB chunks⟩
  · rw [bufferFillParts_eq_chunksOf hB, bufferFillParts_eq_chunksOf hB, h]
  · rw [bufferFillParts_eq_chunksOf hB]
    exact (chunksOf_spec hB _).2.1
  · rw [bufferFillParts_eq_chunksOf hB]
    exact (chunksOf_spec hB _).2.2

/-- C5 witness: two different read chunkings of the bytes `[1,2,3]` yield the
same planned parts. -/
theorem claim5_buffer_fill_plan_witness :
    ([[1, 2], [3]] : List (List Nat)).flatten = ([[1], [2, 3]] : List (List Nat)).flatten ∧
    bufferFillParts bufferSize [[1, 2], [3]] = bufferFillParts bufferSize [[1], [2, 3]] :=
  ⟨rfl, (claim5_buffer_fill_plan [[1, 2], [3]] [[1], [2, 3]] rfl).1⟩

/-- C2 (counterexample): in the workflow variant, when the complete POST fails
(the root cause `完成上传失败`) and the `'Abort upload'` step then exhausts its
own retries, the caller observes the abort step's error — the abort failure is
not swallowed and replaces the root cause. -/
theorem claim2_abort_masking_cex :
    (workflowRun bufferSize wAbortMask).1 = .error .abortStepFailed ∧
    (Except.error Err.abortStepFailed : Except Err Unit) ≠ .error .completeFailed :=
  ⟨rfl, by intro h ; exact absurd (Except.error.inj h) (by decide)⟩

/-- C2 (amended): after a failure past initiate — whether a part upload fails
or the complete POST fails — abort is attempted before the original error is
re-raised: unconditionally so in both sequential variants (`part_000` and
`part_001`), whose abort DELETE failure is caught, logged and never observable
in the result; in the workflow variant the original error is re-raised
provided the retried abort step succeeds (if that step itself fails, its
error replaces the root cause, see the counterexample). -/
theorem claim2_abort_propagation (B : Nat) (q : QueueInput) (w : WorkflowInput)
    (b : BlobInput) :
    (∀ bl : Bool, seqRun B { q with abortFetchThrows := bl } = seqRun B q) ∧
    (∀ bl : Bool, blobRun { b with abortFetchThrows := bl } = blobRun b) ∧
    (∀ chunks uid e, q.download = .ok chunks → q.initOk = true →
      uploadIdOf q.initBody = some uid →
      (seqUploads q.partResp (some uid) (plannedOf B chunks)).1 = .error e →
      (seqRun B q).1 = .error e ∧ Ev.abort ∈ (seqRun B q).2) ∧
    (∀ chunks uid parts, q.download = .ok chunks → q.initOk = true →
      uploadIdOf q.initBody = some uid →
      (seqUploads q.partResp (some uid) (plannedOf B chunks)).1 = .ok parts →
      q.completeOk = false →
      (seqRun B q).1 = .error .completeFailed ∧ Ev.abort ∈ (seqRun B q).2) ∧
    (∀ bytes uid e, b.download = .ok bytes → b.initOk = true →
      uploadIdOf b.initBody = some uid →
      (seqUploads b.partResp (some uid) ((slicePlan bytes.length b.chunkSize).map
        (fun t => (t.1, blobSlice bytes t.2.1 t.2.2)))).1 = .error e →
      (blobRun b).1 = .error e ∧ Ev.abort ∈ (blobRun b).2) ∧
    (∀ bytes uid parts, b.download = .ok bytes → b.initOk = true →
      uploadIdOf b.initBody = some uid →
      (seqUploads b.partResp (some uid) ((slicePlan bytes.length b.chunkSize).map
        (fun t => (t.1, blobSlice bytes t.2.1 t.2.2)))).1 = .ok parts →
      b.completeOk = false →
      (blobRun b).1 = .error .completeFailed ∧ Ev.abort ∈ (blobRun b).2) ∧
    (∀ chunks e, w.download = .ok chunks → w.initOk = true → w.abortStepOk = true →
      collect ((outcomesOf w.partResp B chunks).map (fun o => o.2)) = .error e →
      (workflowRun B w).1 = .error e ∧ Ev.abort ∈ (workflowRun B w).2) ∧
    (∀ chunks parts, w.download = .ok chunks → w.initOk = true → w.abortStepOk = true →
      collect ((outcomesOf w.partResp B chunks).map (fun o => o.2)) = .ok parts →
      w.completeOk = false →
      (workflowRun B w).1 = .error .completeFailed ∧ Ev.abort ∈ (workflowRun B w).2) := by
  refine ⟨?_, ?_, ?_, ?_, ?_, ?_, ?_, ?_⟩
  · intro bl
    rfl
  · intro bl
    rfl
  · intro chunks uid e hd hi hu he
    constructor
    · simp [seqRun, hd, hi, hu, he]
    · simp [seqRun, hd, hi, hu, he]
  · intro chunks uid parts hd hi hu hok hc
    constructor
    · simp [seqRun, hd, hi, hu, hok, hc]
    · simp [seqRun, hd, hi, hu, hok, hc]
  · intro bytes uid e hd hi hu he
    constructor
    · simp [blobRun, hd, hi, hu, he]
    · simp [blobRun, hd, hi, hu, he]
  · intro bytes uid parts hd hi hu hok hc
    constructor
    · simp [blobRun, hd, hi, hu, hok, hc]
    · simp [blobRun, hd, hi, hu, hok, hc]
  · intro chunks e hd hi ha he
    constructor
    · simp [workflowRun, hd, hi, he, ha]
    · simp [workflowRun, hd, hi, he]
  · intro chunks parts hd hi ha hok hc
    constructor
    · simp [workflowRun, hd, hi, hok, hc, ha]
    · simp [workflowRun, hd, hi, hok, hc]

/-- C2 witness: part-upload failures and complete failures in each of the
three variants re-raise the original error once abort ran (the queue and blob
inputs have a rejecting abort DELETE; the workflow inputs a working abort
step). -/
theorem claim2_abort_propagation_witness :
    (seqRun bufferSize qPartFail).1 = .error (.partUploadFailed 1) ∧
    (seqRun bufferSize qCompleteFail).1 = .error .completeFailed ∧
    (blobRun bPartFail).1 = .error (.partUploadFailed 1) ∧
    (blobRun bCompleteFail).1 = .error .completeFailed ∧
    (workflowRun bufferSize wPartFail).1 = .error (.collectPartFailed (.partUploadFailed 1)) ∧
    (workflowRun bufferSize wCompleteFail).1 = .error .completeFailed := by
  have h1 := claim2_abort_propagation bufferSize qPartFail wPartFail bPartFail
  have h2 := claim2_abort_propagation bufferSize qCompleteFail wCompleteFail bCompleteFail
  refine ⟨?_, ?_, ?_, ?_, ?_, ?_⟩
  · exact (h1.2.2.1 [[7]] ("uid-1".toList) (.partUploadFailed 1) rfl rfl rfl rfl).1
  · exact (h2.2.2.2.1 [[7]] ("uid-1".toList) [{ ETag := "etag-1", PartNumber := 1 }]
      rfl rfl rfl rfl rfl).1
  · exact (h1.2.2.2.2.1 [1, 2, 3] ("uid-1".toList) (.partUploadFailed 1) rfl rfl rfl rfl).1
  · exact (h2.2.2.2.2.2.1 [1, 2, 3] ("uid-1".toList)
      [{ ETag := "etag-1", PartNumber := 1 }, { ETag := "etag-2", PartNumber := 2 }]
      rfl rfl rfl rfl rfl).1
  · exact (h1.2.2.2.2.2.2.1 [[1, 2, 3]] (.collectPartFailed (.partUploadFailed 1))
      rfl rfl rfl rfl).1
  · exact (h2.2.2.2.2.2.2.2 [[1]] [{ ETag := "etag-1", PartNumber := 1 }]
      rfl rfl rfl rfl rfl).1

/-- C8: a part upload fails with `分片 n 上传失败` on a non-ok response, fails
with `分片 n 未返回 ETag` on an ok response whose ETag header is absent, and
returns the Part Result `{ETag, PartNumber}` exactly when the response is ok
and carries an entity tag — never with a missing one. -/
theorem claim8_part_upload (r : PartResponse) (n : Nat) :
    (r.ok = false → uploadPart r n = .error (.partUploadFailed n)) ∧
    (r.ok = true → r.etag = none → uploadPart r n = .error (.etagMissing n)) ∧
    ∀ p : UploadPart, uploadPart r n = .ok p ↔
      r.ok = true ∧ r.etag = some p.ETag ∧ p.PartNumber = n := by
  refine ⟨?_, ?_, fun p => uploadPart_ok_iff⟩
  · intro h
    simp [uploadPart, h]
  · intro h1 h2
    simp [uploadPart, h1, h2]

/-- C8 witness: the three response shapes at part number 3. -/
theorem claim8_part_upload_witness :
    uploadPart { ok := false, etag := none } 3 = .error (.partUploadFailed 3) ∧
    uploadPart { ok := true, etag := none } 3 = .error (.etagMissing 3) ∧
    uploadPart { ok := true, etag := some ("x") } 3 = .ok { ETag := "x", PartNumber := 3 } :=
  ⟨(claim8_part_upload _ 3).1 rfl,
   (claim8_part_upload _ 3).2.1 rfl rfl,
   ((claim8_part_upload _ 3).2.2 _).mpr ⟨rfl, rfl, rfl⟩⟩

/-- C9: a failing source download propagates its error unchanged and nothing
destination-side happens in any variant: the result carries the download error
text and the protocol event trace is empty — no initiate, no PUT, no abort. -/
theorem claim9_download_failure (B : Nat) (w : WorkflowInput) (q : QueueInput)
    (b : BlobInput) (s : String)
    (hw : w.download = .error s) (hq : q.download = .error s) (hb : b.download = .error s) :
    workflowRun B w = (.error (.downloadFailed s), []) ∧
    seqRun B q = (.error (.downloadFailed s), []) ∧
    blobRun b = (.error (.downloadFailed s), []) := by
  refine ⟨?_, ?_, ?_⟩
  · simp [workflowRun, hw]
  · simp [seqRun, hq]
  · simp [blobRun, hb]

/-- C9 witness: a download failing with body text `boom` in each variant. -/
theorem claim9_download_failure_witness :
    workflowRun bufferSize wDown = (.error (.downloadFailed ("boom")), []) ∧
    seqRun bufferSize qDown = (.error (.downloadFailed ("boom")), []) ∧
    blobRun bDown = (.error (.downloadFailed ("boom")), []) :=
  claim9_download_failure bufferSize wDown qDown bDown ("boom") rfl rfl rfl

/-- C6: the part list inside the submitted complete event is the
`Promise.allSettled` collection in promise-push order — part numbers exactly
`1..N`, strictly ascending — independent of the real-time settlement order,
and its part numbers are exactly those with a successful Part Result. -/
theorem claim6_complete_order (B : Nat) (w : WorkflowInput) (chunks : List (List Nat))
    (hd : w.download = .ok chunks) (hi : w.initOk = true)
    (hall : ∀ q ∈ outcomesOf w.partResp B chunks, outcomeOk q.2 = true) :
    (∀ so : List Nat,
      Ev.complete (okParts ((outcomesOf w.partResp B chunks).map (fun o => o.2)))
        ∈ (workflowRun B { w with settleOrder := so }).2) ∧
    (okParts ((outcomesOf w.partResp B chunks).map (fun o => o.2))).map
        (fun p => p.PartNumber) =
      (outcomesOf w.partResp B chunks).filterMap
        (fun q => if outcomeOk q.2 = true then some q.1 else none) ∧
    (okParts ((outcomesOf w.partResp B chunks).map (fun o => o.2))).map
        (fun p => p.PartNumber) =
      List.range' 1 (bufferFillParts B chunks).length ∧
    List.Pairwise (fun a b => a < b)
      ((okParts ((outcomesOf w.partResp B chunks).map (fun o => o.2))).map
        (fun p => p.PartNumber)) := by
  have hall' : ∀ o ∈ (outcomesOf w.partResp B chunks).map (fun o => o.2),
      outcomeOk o = true := by
    intro o ho
    obtain ⟨q, hq, rfl⟩ := List.mem_map.mp ho
    exact hall q hq
  have hcol := collect_eq_okParts hall'
  have hok : ∀ q ∈ outcomesOf w.partResp B chunks,
      ∃ p, q.2 = Except.ok p ∧ p.PartNumber = q.1 := by
    intro q hq
    obtain ⟨p, hp⟩ := outcomeOk_iff.mp (hall q hq)
    refine ⟨p, hp, ?_⟩
    rw [outcomesOf_mem hq] at hp
    exact (uploadPart_ok_iff.mp hp).2.2
  obtain ⟨ps, hc, hm⟩ := collect_eq_ok hok
  have hps : okParts ((outcomesOf w.partResp B chunks).map (fun o => o.2)) = ps := by
    rw [hcol] at hc
    exact Except.ok.inj hc
  have hmap : (okParts ((outcomesOf w.partResp B chunks).map (fun o => o.2))).map
      (fun p => p.PartNumber) = (outcomesOf w.partResp B chunks).map (fun q => q.1) := by
    rw [hps]
    exact hm
  refine ⟨?_, ?_, ?_, ?_⟩
  · intro so
    by_cases hcOK : w.completeOk = false
    · simp [workflowRun, hd, hi, hcol, hcOK]
    · simp [workflowRun, hd, hi, hcol, hcOK]
  · rw [hmap, filterMap_all_ok hall]
  · rw [hmap, outcomesOf_map_fst]
  · rw [hmap, outcomesOf_map_fst]
    exact List.pairwise_lt_range' 1 _
/-- C6 witness: a successful one-part transfer submits exactly the part list
`[1]`. -/
theorem claim6_complete_order_witness :
    (okParts ((outcomesOf wOk.partResp bufferSize [[5]]).map (fun o => o.2))).map
        (fun p => p.PartNumber) =
      List.range' 1 (bufferFillParts bufferSize [[5]]).length :=
  (claim6_complete_order bufferSize wOk [[5]] rfl rfl (by decide)).2.2.1

/-- C7 (counterexample): with part 1 failing permanently and the abort step
exhausting its retries, the transfer does fail and only after all outcomes are
known, but the terminal error is the abort step's, not a part-failure error. -/
theorem claim7_part_failure_masked_cex :
    firstError ((outcomesOf wPartAbortMask.partResp bufferSize [[1, 2, 3]]).map
        (fun o => o.2)) = some (.partUploadFailed 1) ∧
    (workflowRun bufferSize wPartAbortMask).1 = .error .abortStepFailed ∧
    isCollectFailure (workflowRun bufferSize wPartAbortMask).1 = false :=
  ⟨rfl, rfl, rfl⟩

/-- C7 (amended): in concurrent mode, when at least one part upload fails
permanently, every in-flight part settles before the failure is acted on —
the trace ends with the abort, preceded by a settle event for every planned
part, and no complete is ever submitted; the transfer fails with the
`Upload part failed` wrapper around the first rejection provided the retried
abort step itself succeeds (otherwise see the counterexample). -/
theorem claim7_concurrent_failure (B : Nat) (w : WorkflowInput)
    (chunks : List (List Nat)) (e : Err)
    (hd : w.download = .ok chunks) (hi : w.initOk = true)
    (he : firstError ((outcomesOf w.partResp B chunks).map (fun o => o.2)) = some e)
    (ha : w.abortStepOk = true)
    (hperm : w.settleOrder.Perm (List.range (outcomesOf w.partResp B chunks).length)) :
    (workflowRun B w).1 = .error (.collectPartFailed e) ∧
    ∃ pre, (workflowRun B w).2 = pre ++ [Ev.abort] ∧
      (∀ q ∈ outcomesOf w.partResp B chunks, Ev.settled q.1 (outcomeOk q.2) ∈ pre) ∧
      ∀ ps, Ev.complete ps ∉ pre ++ [Ev.abort] := by
  have hcol := collect_eq_error he
  constructor
  · simp [workflowRun, hd, hi, hcol, ha]
  · refine ⟨Ev.initiate :: ((plannedOf B chunks).map
      (fun p => Ev.putPart p.1 (uploadIdOf w.initBody) p.2) ++
      w.settleOrder.filterMap (fun i => ((outcomesOf w.partResp B chunks)[i]?).map
        (fun o => Ev.settled o.1 (outcomeOk o.2)))), ?_, ?_, ?_⟩
    · simp [workflowRun, hd, hi, hcol]
    · intro q hq
      obtain ⟨i, hgi⟩ := List.mem_iff_getElem?.mp hq
      have hilt : i < (outcomesOf w.partResp B chunks).length :=
        List.getElem?_eq_some.mp hgi |>.1
      have hmem : i ∈ w.settleOrder := hperm.mem_iff.mpr (List.mem_range.mpr hilt)
      refine List.mem_cons_of_mem _ (List.mem_append_right _ ?_)
      refine List.mem_filterMap.mpr ⟨i, hmem, ?_⟩
      rw [hgi]
      rfl
    · intro ps
      simp [List.mem_filterMap, Option.map_eq_some']

/-- C7 witness: capacity 2, two planned parts, part 1 fails, part 2 succeeds,
settlements arrive out of order, abort step succeeds: the transfer fails with
the wrapped part-1 failure. -/
theorem claim7_concurrent_failure_witness :
    (workflowRun 2 wTwoParts).1 = .error (.collectPartFailed (.partUploadFailed 1)) :=
  (claim7_concurrent_failure 2 wTwoParts [[1, 2, 3]] (.partUploadFailed 1)
    rfl rfl rfl rfl (List.Perm.swap 0 1 [])).1

/-- C10: a zero-byte source still initiates a multipart upload in every
variant and then completes with an empty part list — no per-part PUT is ever
issued, no single-shot put replaces the protocol, no variant rejects the empty
object, and the `CompleteMultipartUpload` body contains zero `<Part>`
entries. -/
theorem claim10_empty_object (B : Nat) (hB : 0 < B) (w : WorkflowInput) (q : QueueInput)
    (b : BlobInput) (chunksW chunksQ : List (List Nat)) (uidQ uidB : List Char)
    (hwd : w.download = .ok chunksW) (hwf : chunksW.flatten = [])
    (hwi : w.initOk = true) (hwc : w.completeOk = true)
    (hqd : q.download = .ok chunksQ) (hqf : chunksQ.flatten = [])
    (hqi : q.initOk = true) (hqu : uploadIdOf q.initBody = some uidQ)
    (hqc : q.completeOk = true)
    (hbd : b.download = .ok []) (hbi : b.initOk = true)
    (hbu : uploadIdOf b.initBody = some uidB) (hbc : b.completeOk = true) :
    workflowRun B w = (.ok (), [.initiate, .complete []]) ∧
    seqRun B q = (.ok (), [.initiate, .complete []]) ∧
    blobRun b = (.ok (), [.initiate, .complete []]) ∧
    countOccs ("<Part>".toList) ((completeXml []).toList) = 0 := by
  have hwparts : bufferFillParts B chunksW = [] := by
    rw [bufferFillParts_eq_chunksOf hB, hwf]
    rfl
  have hqparts : bufferFillParts B chunksQ = [] := by
    rw [bufferFillParts_eq_chunksOf hB, hqf]
    rfl
  have hplan : slicePlan 0 b.chunkSize = [] := by
    have h0 : totalChunks 0 b.chunkSize = 0 := by
      unfold totalChunks
      rcases b.chunkSize with - | k
      · rfl
      · exact Nat.div_eq_of_lt (by omega)
    simp [slicePlan, h0]
  refine ⟨?_, ?_, ?_, by decide⟩
  · simp [workflowRun, hwd, hwi, hwc, plannedOf, outcomesOf, hwparts, numberFrom, collect]
  · simp [seqRun, hqd, hqi, hqu, hqc, plannedOf, hqparts, numberFrom, seqUploads]
  · simp [blobRun, hbd, hbi, hbu, hbc, hplan, seqUploads]

/-- C10 witness: empty downloads in all three variants complete with an empty
part list. -/
theorem claim10_empty_object_witness :
    workflowRun bufferSize wEmpty = (.ok (), [.initiate, .complete []]) ∧
    seqRun bufferSize qEmpty = (.ok (), [.initiate, .complete []]) ∧
    blobRun bEmpty = (.ok (), [.initiate, .complete []]) := by
  have h := claim10_empty_object bufferSize (by norm_num [bufferSize]) wEmpty qEmpty bEmpty
    [] [] ("uid-1".toList) ("uid-1".toList) rfl rfl rfl rfl rfl rfl rfl rfl rfl rfl rfl rfl rfl
  exact ⟨h.1, h.2.1, h.2.2.1⟩

end S3Sync
